import Mathlib

/-!
# Verification of the `tls-rs` thread-local-storage library

This file is a shallow embedding, in Lean 4, of the four TLS flavors of the
`tls` crate (`src/os.rs`, `src/statik.rs`, `src/scoped.rs`, `src/dynamic.rs`)
together with proofs of the specified properties.

Modelling conventions:
* OS keys and raw pointers are `Nat`; `0` is the null pointer / the
  unallocated key sentinel of a `StaticKey`'s atomic cell.
* Per-thread OS slots are a function `thread → key → Nat`.
* Stateful Rust code becomes explicit state passing; a user callback
  (closure, destructor body) becomes a function parameter transforming the
  state.
* Each definition's doc comment names the Rust item it embeds.
-/

/-! ## The OS key layer (`src/os.rs`)

`OsState` collects the process-wide mutable state that `os.rs` manipulates:
the `StaticKey`'s atomic cell (`inner.key`), the allocator of fresh OS keys
(`imp::create`), the global key registry `KEYS`, the log of keys handed to
`imp::destroy`, the per-thread pointer slots, the count of user-destructor
invocations, and an observation log used by destructor probes. -/

/-- Process-wide state of the OS key layer of `os.rs`.

* `cell` — the `AtomicUint` inside `StaticKeyInner` (0 = unallocated);
* `fresh` — allocator state: `imp::create` returns `fresh + 1` (never 0,
  mirroring the `assert!(key != 0)` after creation);
* `registry` — the global `KEYS` vector maintained by `register_key` /
  `unregister_key`;
* `freedKeys` — the keys passed to `imp::destroy` so far (e.g.
  `pthread_key_delete`), in order;
* `slots` — per-thread per-key pointer slots (`imp::get` / `imp::set`),
  0 meaning null;
* `userDtorRuns` — how many times a user-provided destructor has been
  invoked;
* `log` — extra observations recorded by probe destructors in proofs. -/
structure OsState where
  cell : Nat
  fresh : Nat
  registry : List Nat
  freedKeys : List Nat
  slots : Nat → Nat → Nat
  userDtorRuns : Nat
  log : List Nat

/-- `imp::create` (e.g. `pthread_key_create`): allocates a fresh OS key.
The model hands out the ids 1, 2, 3, …; the returned key is never 0,
mirroring `assert!(key != 0)` in `lazy_init`. -/
def impCreate (s : OsState) : Nat × OsState :=
  (s.fresh + 1, { s with fresh := s.fresh + 1 })

/-- `imp::destroy` (e.g. `pthread_key_delete` / `TlsFree`): frees the OS
key. It does not read or write any per-thread slot value and never invokes
a user destructor; the model only records the freed key. -/
def impDestroy (k : Nat) (s : OsState) : OsState :=
  { s with freedKeys := s.freedKeys ++ [k] }

/-- Read a per-thread slot (`imp::get`). -/
def getSlot (t k : Nat) (s : OsState) : Nat := s.slots t k

/-- Write a per-thread slot (`imp::set`). -/
def setSlot (t k v : Nat) (s : OsState) : OsState :=
  { s with slots := fun u j => if u = t ∧ j = k then v else s.slots u j }

/-- `register_key` in `os.rs`: push the key onto the global `KEYS`
registry. -/
def register_key (k : Nat) (s : OsState) : OsState :=
  { s with registry := s.registry ++ [k] }

/-- `unregister_key` in `os.rs`: `keys.retain(|x| *x != key)`. -/
def unregister_key (k : Nat) (s : OsState) : OsState :=
  { s with registry := s.registry.filter (fun x => x ≠ k) }

/-- `StaticKey::lazy_init`: create a fresh key (asserted nonzero), then
`compare_and_swap(0, key)` on the cell.  The CAS observes the *current*
cell value `s.cell` (in a race it may be nonzero although the caller
earlier loaded 0).  On success (cell was 0) the key is installed and
registered and returned; on failure the caller destroys its own redundant
key and adopts the value already in the cell. -/
def lazy_init (s : OsState) : Nat × OsState :=
  let c := impCreate s
  if c.2.cell = 0 then
    (c.1, register_key c.1 { c.2 with cell := c.1 })
  else
    (c.2.cell, impDestroy c.1 c.2)

/-- `StaticKey::key`: load the cell; 0 means lazily initialize, otherwise
use the stored key. -/
def skKey (s : OsState) : Nat × OsState :=
  if s.cell = 0 then lazy_init s else (s.cell, s)

/-- `StaticKey::get` executed by thread `t`: resolve the key, then
`imp::get`. -/
def skGet (t : Nat) (s : OsState) : Nat × OsState :=
  let r := skKey s
  (r.2.slots t r.1, r.2)

/-- `StaticKey::set` executed by thread `t`: resolve the key, then
`imp::set`. -/
def skSet (t v : Nat) (s : OsState) : OsState :=
  let r := skKey s
  setSlot t r.1 v r.2

/-- `StaticKey::destroy`: `swap(0)` on the cell; if the old value was 0 do
nothing, otherwise unregister the old key and free it with
`imp::destroy`.  The swap to zero happens before the free. -/
def skDestroy (s : OsState) : OsState :=
  if s.cell = 0 then s
  else impDestroy s.cell (unregister_key s.cell { s with cell := 0 })

/-- `Key::new` in `os.rs` (the `Drop`-implementing wrapper): just
`imp::create(dtor)`.  Note that it does **not** call `register_key`. -/
def keyNew (s : OsState) : Nat × OsState := impCreate s

/-- `impl Drop for Key`: just `imp::destroy(self.key)`.  Note that it does
**not** call `unregister_key`. -/
def keyDrop (k : Nat) (s : OsState) : OsState := impDestroy k s

/-- The `rt::at_exit` closure installed by `init_keys`: take the `KEYS`
vector (nulling the global), and `imp::destroy` every key in it. -/
def atExitSweep (s : OsState) : OsState :=
  { s.registry.foldl (fun acc k => impDestroy k acc) s with registry := [] }

/-- One sequential operation on a `StaticKey`. -/
inductive SKOp where
  | get (t : Nat)
  | set (t v : Nat)
  | destroy
deriving DecidableEq

/-- Sequential small-step semantics for a `StaticKey`. -/
def skStep : SKOp → OsState → OsState
  | SKOp.get t, s => (skGet t s).2
  | SKOp.set t v, s => skSet t v s
  | SKOp.destroy, s => skDestroy s

/-- The successive values of the atomic cell along a trace of operations
(including the initial value). -/
def cellsAlong : List SKOp → OsState → List Nat
  | [], s => [s.cell]
  | op :: rest, s => s.cell :: cellsAlong rest (skStep op s)

/-- Count the 0→nonzero transitions in a list of successive cell values. -/
def countZeroUp : List Nat → Nat
  | [] => 0
  | [_] => 0
  | a :: b :: rest =>
      (if a = 0 ∧ b ≠ 0 then 1 else 0) + countZeroUp (b :: rest)

/-- The initial process state: unallocated cell, no keys, all slots null. -/
def osInit : OsState :=
  { cell := 0, fresh := 0, registry := [], freedKeys := [],
    slots := fun _ _ => 0, userDtorRuns := 0, log := [] }

-- Basic sanity checks of the embedding.
example : (skGet 0 osInit).2.cell = 1 := by decide
example : (skStep SKOp.destroy (skStep (SKOp.get 0) osInit)).cell = 0 := by decide

/-- **C2.** For a `StaticKey` whose cell holds 0 at the CAS, `lazy_init`
installs the freshly created nonzero key, registers it and returns it;
when the CAS fails because another caller won the race (cell nonzero at
the CAS), the caller frees its own redundant key, adopts the cell's value,
and no error occurs (the adopted key is the winner's nonzero key). -/
theorem lazy_init_cas_race (s : OsState) :
    (s.cell = 0 →
      (lazy_init s).1 = s.fresh + 1 ∧
      (lazy_init s).1 ≠ 0 ∧
      (lazy_init s).2.cell = s.fresh + 1 ∧
      (lazy_init s).2.registry = s.registry ++ [s.fresh + 1] ∧
      (lazy_init s).2.freedKeys = s.freedKeys) ∧
    (s.cell ≠ 0 →
      (lazy_init s).1 = s.cell ∧
      (lazy_init s).2.cell = s.cell ∧
      (lazy_init s).2.freedKeys = s.freedKeys ++ [s.fresh + 1] ∧
      (lazy_init s).2.registry = s.registry) := by
  constructor
  · intro h
    simp [lazy_init, impCreate, register_key, h]
  · intro h
    simp [lazy_init, impCreate, impDestroy, h]

/-- A loser state for the CAS race: some other caller already installed
key 9. -/
def osRace : OsState := { osInit with cell := 9, fresh := 2 }

/-- Witness for `lazy_init_cas_race`: concrete winner (`osInit`) and
loser (`osRace`) runs. -/
theorem lazy_init_cas_race_witness :
    ((lazy_init osInit).1 = osInit.fresh + 1 ∧
      (lazy_init osInit).1 ≠ 0 ∧
      (lazy_init osInit).2.cell = osInit.fresh + 1 ∧
      (lazy_init osInit).2.registry = osInit.registry ++ [osInit.fresh + 1] ∧
      (lazy_init osInit).2.freedKeys = osInit.freedKeys) ∧
    ((lazy_init osRace).1 = osRace.cell ∧
      (lazy_init osRace).2.cell = osRace.cell ∧
      (lazy_init osRace).2.freedKeys = osRace.freedKeys ++ [osRace.fresh + 1] ∧
      (lazy_init osRace).2.registry = osRace.registry) :=
  ⟨(lazy_init_cas_race osInit).1 rfl,
   (lazy_init_cas_race osRace).2 (by decide)⟩

/-! ### C5 — lifetime of the `StaticKey` cell

The claim says the cell goes 0→nonzero *exactly once* over its lifetime
and that after `destroy` no subsequent operation installs a new nonzero
key.  The code contradicts this: `StaticKey::key` treats a 0 cell —
including a cell that `destroy` reset to 0 — as "lazily initialize", so a
`get` after a `destroy` installs a fresh nonzero key. -/

/-- **C5 counterexample.** On the trace `get, destroy, get` from the
initial state the cell takes the values `0, 1, 0, 2`: it transitions from
0 to nonzero twice, and the operation after `destroy` installs a new
nonzero key (2) into the cell. -/
theorem staticKey_cell_not_once :
    cellsAlong [SKOp.get 0, SKOp.destroy, SKOp.get 0] osInit = [0, 1, 0, 2] ∧
    countZeroUp (cellsAlong [SKOp.get 0, SKOp.destroy, SKOp.get 0] osInit) = 2 ∧
    (skStep (SKOp.get 0) (skStep SKOp.destroy (skStep (SKOp.get 0) osInit))).cell ≠ 0 := by
  refine ⟨by decide, by decide, by decide⟩

/-- **C5 amended.** The cell leaves 0 only through the CAS of an access
(never through `destroy`), installing the freshly created nonzero key;
it reverts from nonzero to 0 only through `destroy`; `destroy` on a cell
already 0 is a no-op on the whole state; `destroy` on a nonzero cell zeros
the cell and frees the old key; and the descriptor *is* reinitializable:
after any `destroy`, a subsequent `get` installs a fresh nonzero key. -/
theorem staticKey_cell_transitions (s : OsState) (op : SKOp) (t : Nat) :
    (s.cell ≠ 0 → (skStep op s).cell = 0 → op = SKOp.destroy) ∧
    (s.cell = 0 → (skStep op s).cell ≠ 0 →
      op ≠ SKOp.destroy ∧ (skStep op s).cell = s.fresh + 1) ∧
    (s.cell = 0 → skStep SKOp.destroy s = s) ∧
    (s.cell ≠ 0 → (skDestroy s).cell = 0 ∧
      (skDestroy s).freedKeys = s.freedKeys ++ [s.cell]) ∧
    ((skStep (SKOp.get t) (skDestroy s)).cell = (skDestroy s).fresh + 1 ∧
      (skStep (SKOp.get t) (skDestroy s)).cell ≠ 0) := by
  have hdz : (skDestroy s).cell = 0 := by
    by_cases h : s.cell = 0
    · simp [skDestroy, h]
    · simp [skDestroy, h, impDestroy, unregister_key]
  refine ⟨?_, ?_, ?_, ?_, ?_⟩
  · intro hnz h0
    cases op with
    | get t =>
        exfalso
        simp [skStep, skGet, skKey, hnz] at h0
    | set t v =>
        exfalso
        simp [skStep, skSet, skKey, hnz, setSlot] at h0
    | destroy => rfl
  · intro hz hnz
    cases op with
    | get t =>
        refine ⟨by simp, ?_⟩
        simp [skStep, skGet, skKey, hz, lazy_init, impCreate, register_key]
    | set t v =>
        refine ⟨by simp, ?_⟩
        simp [skStep, skSet, skKey, hz, lazy_init, impCreate, register_key,
          setSlot]
    | destroy =>
        exfalso
        simp [skStep, skDestroy, hz] at hnz
  · intro hz
    simp [skStep, skDestroy, hz]
  · intro hnz
    simp [skDestroy, hnz, impDestroy, unregister_key]
  · constructor
    · simp [skStep, skGet, skKey, hdz, lazy_init, impCreate, register_key]
    · simp [skStep, skGet, skKey, hdz, lazy_init, impCreate, register_key]

/-- Witness for `staticKey_cell_transitions`: concrete runs at a nonzero
cell (`osRace`, cell 9) and at the zero cell (`osInit`). -/
theorem staticKey_cell_transitions_witness :
    (osRace.cell ≠ 0 → (skStep SKOp.destroy osRace).cell = 0 → SKOp.destroy = SKOp.destroy) ∧
    (osInit.cell = 0 → skStep SKOp.destroy osInit = osInit) ∧
    (osRace.cell ≠ 0 → (skDestroy osRace).cell = 0 ∧
      (skDestroy osRace).freedKeys = osRace.freedKeys ++ [osRace.cell]) ∧
    ((skStep (SKOp.get 0) (skDestroy osInit)).cell ≠ 0) :=
  ⟨(staticKey_cell_transitions osRace SKOp.destroy 0).1,
   (staticKey_cell_transitions osInit SKOp.destroy 0).2.2.1,
   (staticKey_cell_transitions osRace SKOp.destroy 0).2.2.2.1,
   (staticKey_cell_transitions osInit SKOp.destroy 0).2.2.2.2.2⟩

/-! ### C10 — `destroy` and the exit sweep are frame-preserving

`StaticKey::destroy` and the `rt::at_exit` registry sweep only free the
OS key: they never invoke a user destructor and leave every per-thread
slot untouched. -/

/-- `foldl` of `impDestroy` over any key list never changes the slots or
the user-destructor count. -/
theorem foldl_impDestroy_frame (ks : List Nat) (s : OsState) :
    (ks.foldl (fun acc k => impDestroy k acc) s).slots = s.slots ∧
    (ks.foldl (fun acc k => impDestroy k acc) s).userDtorRuns = s.userDtorRuns := by
  induction ks generalizing s with
  | nil => exact ⟨rfl, rfl⟩
  | cons k rest ih =>
      have h := ih (impDestroy k s)
      simpa [impDestroy] using h

/-- **C10.** `StaticKey::destroy` and the process-exit registry sweep
leave every thread's stored slot values unchanged and never invoke the
user-provided destructor. -/
theorem destroy_and_sweep_frame (s : OsState) :
    (skDestroy s).slots = s.slots ∧
    (skDestroy s).userDtorRuns = s.userDtorRuns ∧
    (atExitSweep s).slots = s.slots ∧
    (atExitSweep s).userDtorRuns = s.userDtorRuns := by
  refine ⟨?_, ?_, ?_, ?_⟩
  · by_cases h : s.cell = 0 <;>
      simp [skDestroy, h, impDestroy, unregister_key]
  · by_cases h : s.cell = 0 <;>
      simp [skDestroy, h, impDestroy, unregister_key]
  · simpa [atExitSweep] using (foldl_impDestroy_frame s.registry s).1
  · simpa [atExitSweep] using (foldl_impDestroy_frame s.registry s).2

/-! ### C8 — which wrapper uses the Global Key Registry

The claim says the `Drop`-implementing `Key` registers its key at
creation and unregisters at destruction, so the exit sweep reclaims
leaked `Key`s.  In the code `Key::new` is just `imp::create` and
`Drop for Key` just `imp::destroy`; neither touches `KEYS`.  The registry
is maintained by `StaticKey::lazy_init` / `StaticKey::destroy`. -/

/-- **C8 counterexample.** Creating an explicitly-owned `Key` leaves the
registry empty, and if that `Key` leaks (its `destroy`/`Drop` never runs)
the process-exit sweep frees nothing: the leaked key 1 is not reclaimed. -/
theorem key_not_registered :
    ((keyNew osInit).2).registry = [] ∧
    (atExitSweep ((keyNew osInit).2)).freedKeys = [] := by
  refine ⟨rfl, rfl⟩

/-- **C8 amended.** The `Drop`-implementing `Key` never touches the
Global Key Registry: `Key::new` leaves the registry unchanged and its
`Drop` frees its OS key directly, also leaving the registry unchanged.
It is the `StaticKey` that registers its key at lazy initialization and
unregisters it in `destroy`; the process-exit sweep frees exactly the
keys still in the registry and empties it. -/
theorem registry_is_for_static_keys (s : OsState) (k : Nat) :
    ((keyNew s).2).registry = s.registry ∧
    (keyDrop k s).registry = s.registry ∧
    (keyDrop k s).freedKeys = s.freedKeys ++ [k] ∧
    (s.cell = 0 →
      ((lazy_init s).2).registry = s.registry ++ [(lazy_init s).1]) ∧
    (s.cell ≠ 0 →
      (skDestroy s).registry = s.registry.filter (fun x => x ≠ s.cell)) ∧
    (atExitSweep s).freedKeys = s.freedKeys ++ s.registry ∧
    (atExitSweep s).registry = [] := by
  refine ⟨rfl, rfl, rfl, ?_, ?_, ?_, rfl⟩
  · intro h
    simp [lazy_init, impCreate, register_key, h]
  · intro h
    simp [skDestroy, h, impDestroy, unregister_key]
  · have : ∀ (ks : List Nat) (s : OsState),
        (ks.foldl (fun acc k => impDestroy k acc) s).freedKeys
          = s.freedKeys ++ ks := by
      intro ks
      induction ks with
      | nil => intro s; simp
      | cons a rest ih =>
          intro s
          show (List.foldl (fun acc k => impDestroy k acc)
              (impDestroy a s) rest).freedKeys = s.freedKeys ++ a :: rest
          rw [ih (impDestroy a s)]
          simp [impDestroy]
    simpa [atExitSweep] using this s.registry s

/-- Witness for `registry_is_for_static_keys`: concrete instantiation at
the initial state (cell 0) and at `osRace` (cell 9). -/
theorem registry_is_for_static_keys_witness :
    (((lazy_init osInit).2).registry = osInit.registry ++ [(lazy_init osInit).1]) ∧
    ((skDestroy osRace).registry = osRace.registry.filter (fun x => x ≠ osRace.cell)) :=
  ⟨(registry_is_for_static_keys osInit 3).2.2.2.1 rfl,
   (registry_is_for_static_keys osRace 3).2.2.2.2.1 (by decide)⟩

/-! ### C6 — the Windows destructor loop (`run_dtors` in `os.rs`)

On the platform without native per-key destructor callbacks the layer
keeps a global `(key, destructor)` table `DTORS` and the loader-invoked
`on_tls_callback` calls `run_dtors` on thread/process detach.  The model
fixes the table for the duration of the run (per-pass snapshotting is the
identity when no destructor registers new entries) and represents a user
destructor as a state transformer `dtorFun dtorId oldPtr state`; each
invocation also bumps `userDtorRuns`. -/

/-- One pass of `run_dtors`: iterate over the snapshot of the table; for
every entry whose slot currently holds a non-null value, set the slot to
null first and then invoke the destructor on the old value, noting that
at least one destructor ran. -/
def runPass (t : Nat) (dtorFun : Nat → Nat → OsState → OsState) :
    List (Nat × Nat) → OsState → OsState × Bool
  | [], s => (s, false)
  | (k, d) :: rest, s =>
      let p := s.slots t k
      if p = 0 then runPass t dtorFun rest s
      else
        let s1 := setSlot t k 0 s
        let s2 := dtorFun d p { s1 with userDtorRuns := s1.userDtorRuns + 1 }
        ((runPass t dtorFun rest s2).1, true)

/-- The `for _ in range(0, 5)` loop of `run_dtors` with its
`if !any_run break`: returns the final state and the number of passes
actually executed. -/
def runDtorsLoop (t : Nat) (dtorFun : Nat → Nat → OsState → OsState)
    (table : List (Nat × Nat)) : Nat → Bool → OsState → OsState × Nat
  | 0, _, s => (s, 0)
  | n + 1, anyRun, s =>
      if anyRun then
        let pr := runPass t dtorFun table s
        let rest := runDtorsLoop t dtorFun table n pr.2 pr.1
        (rest.1, rest.2 + 1)
      else (s, 0)

/-- `run_dtors` in the Windows `imp` module: up to 5 passes, starting with
`any_run = true`. -/
def run_dtors (t : Nat) (dtorFun : Nat → Nat → OsState → OsState)
    (table : List (Nat × Nat)) (s : OsState) : OsState × Nat :=
  runDtorsLoop t dtorFun table 5 true s

/-- A probe destructor for key `k` on thread `t`: when invoked it records
the value its own slot currently holds followed by the pointer argument
it received. -/
def probeDtor (t k : Nat) : Nat → Nat → OsState → OsState :=
  fun _ p s => { s with log := s.log ++ [s.slots t k, p] }

/-- A self-repopulating destructor for key `k` on thread `t`: it stores
the destroyed pointer right back into its own slot. -/
def repopDtor (t k : Nat) : Nat → Nat → OsState → OsState :=
  fun _ p s => setSlot t k p s

/-- The loop executes at most `fuel` passes. -/
theorem runDtorsLoop_pass_bound (t : Nat)
    (dtorFun : Nat → Nat → OsState → OsState) (table : List (Nat × Nat)) :
    ∀ (n : Nat) (b : Bool) (s : OsState),
      (runDtorsLoop t dtorFun table n b s).2 ≤ n := by
  intro n
  induction n with
  | zero => intro b s; simp [runDtorsLoop]
  | succ m ih =>
      intro b s
      cases b with
      | false => simp [runDtorsLoop]
      | true =>
          simp only [runDtorsLoop, if_pos]
          exact Nat.succ_le_succ (ih _ _)

/-- With `any_run = false` the loop breaks immediately. -/
theorem runDtorsLoop_break (t : Nat)
    (dtorFun : Nat → Nat → OsState → OsState) (table : List (Nat × Nat)) :
    ∀ (n : Nat) (s : OsState), runDtorsLoop t dtorFun table n false s = (s, 0) := by
  intro n s
  cases n with
  | zero => rfl
  | succ m => simp [runDtorsLoop]

/-- **C6.** The detach-hook destructor loop runs to quiescence with a
bounded retry: (bound) it never executes more than 5 passes; (stop) after
a pass that ran no destructor, exactly that one pass was executed and no
further pass follows; (clear-then-invoke) a probe destructor observes its
own slot already null while receiving the old non-null value, the loop
performing 2 passes, the second finding nothing to run; (leak) a
destructor that keeps repopulating its own slot is cut off after 5 passes
with the value still in the slot — leaked rather than looped forever. -/
theorem run_dtors_bounded_quiescence :
    (∀ (t : Nat) (dtorFun : Nat → Nat → OsState → OsState)
        (table : List (Nat × Nat)) (s : OsState),
        (run_dtors t dtorFun table s).2 ≤ 5) ∧
    (∀ (t : Nat) (dtorFun : Nat → Nat → OsState → OsState)
        (table : List (Nat × Nat)) (s : OsState) (n : Nat),
        (runPass t dtorFun table s).2 = false →
        runDtorsLoop t dtorFun table (n + 1) true s
          = ((runPass t dtorFun table s).1, 1)) ∧
    ((run_dtors 0 (probeDtor 0 7) [(7, 0)] (setSlot 0 7 42 osInit)).1.log
        = [0, 42] ∧
      (run_dtors 0 (probeDtor 0 7) [(7, 0)] (setSlot 0 7 42 osInit)).1.userDtorRuns = 1 ∧
      (run_dtors 0 (probeDtor 0 7) [(7, 0)] (setSlot 0 7 42 osInit)).1.slots 0 7 = 0 ∧
      (run_dtors 0 (probeDtor 0 7) [(7, 0)] (setSlot 0 7 42 osInit)).2 = 2) ∧
    ((run_dtors 0 (repopDtor 0 7) [(7, 0)] (setSlot 0 7 42 osInit)).2 = 5 ∧
      (run_dtors 0 (repopDtor 0 7) [(7, 0)] (setSlot 0 7 42 osInit)).1.slots 0 7 = 42 ∧
      (run_dtors 0 (repopDtor 0 7) [(7, 0)] (setSlot 0 7 42 osInit)).1.userDtorRuns = 5) := by
  refine ⟨?_, ?_, ?_, ?_⟩
  · intro t dtorFun table s
    exact runDtorsLoop_pass_bound t dtorFun table 5 true s
  · intro t dtorFun table s n h
    simp [runDtorsLoop, h, runDtorsLoop_break]
  · refine ⟨by decide, by decide, by decide, by decide⟩
  · refine ⟨by decide, by decide, by decide⟩

/-- Witness for `run_dtors_bounded_quiescence`: on a state whose only
tracked slot is already null, the pass runs nothing, so the loop stops
after that single pass. -/
theorem run_dtors_bounded_quiescence_witness :
    (runPass 0 (probeDtor 0 7) [(7, 0)] osInit).2 = false ∧
    runDtorsLoop 0 (probeDtor 0 7) [(7, 0)] 4 true osInit
      = ((runPass 0 (probeDtor 0 7) [(7, 0)] osInit).1, 1) :=
  ⟨by decide,
   run_dtors_bounded_quiescence.2.1 0 (probeDtor 0 7) [(7, 0)] osInit 3 (by decide)⟩

/-! ## The owning static layer (`src/statik.rs`)

Two implementations sit behind `statik::Key::get`.

With `feature = "thread-local"` the key is a compiler `#[thread_local]`
cell holding the value together with two per-thread booleans,
`dtor_registered` and `dtor_running`; `destroy_value::<T>` sets
`dtor_running` before dropping the value and `get` returns `None` while
the flag is set (for types that need dropping).

Without the feature the key is an `os::StaticKey` whose per-thread slot
holds null (uninitialized), the sentinel `1` (destructor running), or a
pointer to a heap `Value<T>`; `destroy_value` sets the sentinel before
dropping the box and resets the slot to null right before returning. -/

/-- The per-thread view of a `#[thread_local]` `statik::KeyInner<T>`:
the payload (`inner: UnsafeCell<T>`, values modelled as `Nat`), the two
destructor booleans, and whether `T` needs a drop
(`intrinsics::needs_drop::<T>()`). -/
structure TLKey where
  inner : Nat
  dtor_registered : Bool
  dtor_running : Bool
  needsDrop : Bool
deriving DecidableEq

/-- `Key::get` of the thread-local implementation: return `None` when the
payload type needs dropping and `dtor_running` is set; otherwise register
the destructor (first time, for droppable payloads) and hand out a
reference to the payload. -/
def tlGet (k : TLKey) : TLKey × Option Nat :=
  if k.needsDrop ∧ k.dtor_running then (k, none)
  else
    let k1 := if k.needsDrop ∧ ¬k.dtor_registered
      then { k with dtor_registered := true } else k
    (k1, some k1.inner)

/-- `destroy_value::<T>` of the thread-local implementation: flag
`dtor_running` *before* running the drop of the payload; `body` is the
user destructor (the `Drop` impl of `T`), which may touch thread-local
state. -/
def tlDestroyValue (body : TLKey → TLKey) (k : TLKey) : TLKey :=
  body { k with dtor_running := true }

/-- `Key::ptr` of the fallback (`os::StaticKey`-based) implementation,
acting on this thread's slot value: null means "initialize a fresh boxed
copy of the static initializer and store its address `fresh`"; the
sentinel 1 means "destructor running, no value"; anything else is the
address of the live boxed value.  Returns the new slot value and what
`get` yields (the address of the payload, identified with the box). -/
def fbPtr (slot fresh : Nat) : Nat × Option Nat :=
  if slot ≠ 0 then
    if slot = 1 then (slot, none) else (slot, some slot)
  else (fresh, some fresh)

/-- `Key::get` of the fallback implementation: `ptr().map(...)`. -/
def fbGet (slot fresh : Nat) : Nat × Option Nat := fbPtr slot fresh

/-- `destroy_value::<T>` of the fallback implementation.  The OS has
already nulled the slot and handed us the old box pointer `ptrArg`.  The
code sets the slot to the sentinel 1, drops the box (running the user
destructor `body`, which observes slot state 1 for this key), and resets
the slot to 0 right before returning.  Returns the final slot value and
the destructor body's result. -/
def fbDestroyValue (body : Nat → Nat) (ptrArg : Nat) : Nat × Nat :=
  let during : Nat := 1
  let r := body during
  (0, r)

-- Sanity: a live fallback slot is returned as-is; an empty one is seeded.
example : fbGet 5 9 = (5, some 5) := by decide
example : fbGet 0 9 = (9, some 9) := by decide

/-- **C1.** Once a key's destructor has started on a thread, `get` on
that thread yields no value: the thread-local implementation flags
`dtor_running` before dropping (and `get` checks the flag, returning
`none` without touching the payload), and the fallback implementation
holds the sentinel 1 during destruction, which `get` maps to `none`. -/
theorem get_during_destruction_none :
    (∀ k : TLKey, k.needsDrop = true →
      tlGet { k with dtor_running := true }
        = ({ k with dtor_running := true }, none)) ∧
    (∀ (body : TLKey → TLKey) (k : TLKey),
      tlDestroyValue body k = body { k with dtor_running := true }) ∧
    (∀ fresh : Nat, fbGet 1 fresh = (1, none)) ∧
    (∀ (body : Nat → Nat) (ptrArg : Nat),
      (fbDestroyValue body ptrArg).2 = body 1) := by
  refine ⟨?_, fun _ _ => rfl, fun _ => rfl, fun _ _ => rfl⟩
  intro k h
  simp [tlGet, h]

/-- Witness for `get_during_destruction_none`: a concrete droppable key
whose destructor has started. -/
theorem get_during_destruction_none_witness :
    tlGet { inner := 5, dtor_registered := true, dtor_running := true,
            needsDrop := true }
      = ({ inner := 5, dtor_registered := true, dtor_running := true,
            needsDrop := true }, none) :=
  get_during_destruction_none.1
    { inner := 5, dtor_registered := true, dtor_running := false,
      needsDrop := true } rfl

/-! ### C7 — the per-thread state machine and terminality of `Destroyed`

The claim makes `Destroyed` terminal for the thread: after the destructor
has *finished*, every later `get` must yield no value.  The thread-local
implementation satisfies this (`dtor_running` is never reset), but the
fallback implementation resets the slot to 0 right before the destructor
returns, and `Key::ptr` treats a null slot as "initialize now", so a
later `get` on the same thread yields a fresh value again (this is
exactly what the crate's own `circular` test relies on). -/

/-- **C7 counterexample.** On the fallback implementation the destructor
leaves the slot at 0, and a `get` after the destructor has finished
re-initializes the slot and yields a value (here the fresh box 5), not
"no value". -/
theorem destroyed_not_terminal_fallback :
    (fbDestroyValue (fun s => s) 42).1 = 0 ∧
    fbGet (fbDestroyValue (fun s => s) 42).1 5 = (5, some 5) := by
  exact ⟨rfl, rfl⟩

/-- **C7 amended.** Per thread the key walks Uninitialized → Live →
Destroying; while the destructor runs, `get` yields no value on both
implementations.  On the thread-local implementation `Destroyed` is
terminal: `dtor_running` stays set and `get` keeps returning `none`,
leaving the state unchanged.  On the fallback implementation the
destructor's completion resets the slot to the uninitialized state 0, so
a later `get` on that thread re-initializes and yields a fresh value. -/
theorem state_machine_per_impl :
    (∀ k : TLKey, k.needsDrop = true → k.dtor_running = true →
      tlGet k = (k, none)) ∧
    (∀ fresh : Nat, fbGet 1 fresh = (1, none)) ∧
    (∀ (body : Nat → Nat) (ptrArg : Nat), (fbDestroyValue body ptrArg).1 = 0) ∧
    (∀ fresh : Nat, fbGet 0 fresh = (fresh, some fresh)) := by
  refine ⟨?_, fun _ => rfl, fun _ _ => rfl, fun _ => rfl⟩
  intro k h1 h2
  simp [tlGet, h1, h2]

/-- Witness for `state_machine_per_impl`: concrete destroyed thread-local
key. -/
theorem state_machine_per_impl_witness :
    tlGet { inner := 3, dtor_registered := true, dtor_running := true,
            needsDrop := true }
      = ({ inner := 3, dtor_registered := true, dtor_running := true,
            needsDrop := true }, none) :=
  state_machine_per_impl.1
    { inner := 3, dtor_registered := true, dtor_running := true,
      needsDrop := true } rfl rfl

/-! ### C9 — idempotent per-thread lazy init and thread independence

A value-level view of the owning static layer across threads: each
thread's storage is `none` until its first access, at which point
`Key::ptr` seeds it by copying the static initializer
(`mem::transmute_copy(&self.inner)`); `get` then reads the thread's own
copy, and writes go through the thread's own copy only. -/

/-- `Key::ptr`/`Key::get` of the fallback implementation, value-level and
multi-threaded: thread `t` reads its own storage, seeding it from the
static initializer `init` on first access.  Returns the value `get`
yields and the updated per-thread storage map. -/
def staticGet (init : Nat) (ts : Nat → Option Nat) (t : Nat) :
    Nat × (Nat → Option Nat) :=
  match ts t with
  | some v => (v, ts)
  | none => (init, fun u => if u = t then some init else ts u)

/-- A write to the key's payload on thread `t` (through the
`UnsafeCell`/`get_mut` of the stored copy): only thread `t`'s storage
changes. -/
def staticWrite (ts : Nat → Option Nat) (t v : Nat) : Nat → Option Nat :=
  fun u => if u = t then some v else ts u

/-- `n + 1` successive `get`s by thread `t`; returns the last `get`'s
value and the final storage map. -/
def iterGet (init t : Nat) : Nat → (Nat → Option Nat) → Nat × (Nat → Option Nat)
  | 0, ts => staticGet init ts t
  | n + 1, ts => iterGet init t n (staticGet init ts t).2

/-- Seeding invariant: before any write, a thread's storage is either
empty or holds the initializer's value, and then every `get` yields the
initializer's value and preserves the invariant. -/
theorem iterGet_inv (init t : Nat) :
    ∀ (n : Nat) (ts : Nat → Option Nat),
      (ts t = none ∨ ts t = some init) →
      (iterGet init t n ts).1 = init ∧
      ((iterGet init t n ts).2) t = some init := by
  intro n
  induction n with
  | zero =>
      intro ts h
      cases h with
      | inl h => simp [iterGet, staticGet, h]
      | inr h => simp [iterGet, staticGet, h]
  | succ m ih =>
      intro ts h
      have hnext : ((staticGet init ts t).2) t = some init := by
        cases h with
        | inl h => simp [staticGet, h]
        | inr h => simp [staticGet, h]
      have := ih (staticGet init ts t).2 (Or.inr hnext)
      simpa [iterGet] using this

/-- **C9.** Before any mutation, repeated `get()` on one thread always
yields the static initializer's value — on the fallback implementation
(any number of successive `get`s starting from empty storage) and on the
thread-local implementation (the compiler seeds each thread's cell with
the initializer and `get` never changes the payload).  And the storage is
per-thread: a write on thread `t2 ≠ t1` changes neither what `t1`'s
storage holds nor what `t1`'s next `get` yields. -/
theorem per_thread_seeded_and_independent :
    (∀ (init t n : Nat) (ts : Nat → Option Nat), ts t = none →
      (iterGet init t n ts).1 = init) ∧
    (∀ (init : Nat) (nd : Bool),
      (tlGet { inner := init, dtor_registered := false, dtor_running := false,
               needsDrop := nd }).2 = some init) ∧
    (∀ k : TLKey, ((tlGet k).1).inner = k.inner) ∧
    (∀ (ts : Nat → Option Nat) (t1 t2 v init : Nat), t1 ≠ t2 →
      staticWrite ts t2 v t1 = ts t1 ∧
      (staticGet init (staticWrite ts t2 v) t1).1 = (staticGet init ts t1).1) := by
  refine ⟨?_, ?_, ?_, ?_⟩
  · intro init t n ts h
    exact (iterGet_inv init t n ts (Or.inl h)).1
  · intro init nd
    cases nd <;> simp [tlGet]
  · intro k
    simp only [tlGet]
    split
    · rfl
    · split <;> rfl
  · intro ts t1 t2 v init h
    have hw : staticWrite ts t2 v t1 = ts t1 := by
      simp [staticWrite, h]
    refine ⟨hw, ?_⟩
    cases hts : ts t1 with
    | none => simp [staticGet, hw, hts]
    | some v0 => simp [staticGet, hw, hts]

/-- Witness for `per_thread_seeded_and_independent`: thread 0 does three
`get`s from empty storage and always sees the initializer 11; a write of
99 on thread 1 does not change what thread 0 observes. -/
theorem per_thread_seeded_and_independent_witness :
    (iterGet 11 0 2 (fun _ => none)).1 = 11 ∧
    (staticWrite (fun _ => none) 1 99 0 = (fun (_ : Nat) => (none : Option Nat)) 0 ∧
      (staticGet 11 (staticWrite (fun _ => none) 1 99) 0).1
        = (staticGet 11 (fun _ => none) 0).1) :=
  ⟨per_thread_seeded_and_independent.1 11 0 2 (fun _ => none) rfl,
   per_thread_seeded_and_independent.2.2.2 (fun _ => none) 0 1 99 11 (by decide)⟩

/-! ## The scoped layer (`src/scoped.rs`)

A scoped key is a single per-thread raw-pointer slot (0 = null/unset).
`TlsInner::set` saves the slot as `prev`, stores the borrowed pointer,
runs the closure, and the `Reset` guard's `Drop` writes `prev` back on
*every* exit path — normal return and unwinding alike.  We model the
closure body as a state transformer on the slot: it receives the slot
value after the store and returns the slot it leaves behind together with
its result; the restore unconditionally overwrites that slot with `prev`.
A body that fails is a body whose result is `Except.error`. -/

/-- `TlsInner::set`: save `prev`, store the pointer `t`, run `cb` on the
updated slot, restore `prev` regardless of what `cb` did or how it
exited.  Returns the slot after `set` and `cb`'s result. -/
def scopedSet {α : Type} (t : Nat) (cb : Nat → Nat × α) (slot : Nat) :
    Nat × α :=
  let prev := slot
  let r := cb t
  (prev, r.2)

/-- `TlsInner::with`: read the slot and hand the callback `none` for a
null slot, `some ptr` otherwise; the slot is unchanged. -/
def scopedWith {α : Type} (cb : Option Nat → α) (slot : Nat) : Nat × α :=
  (slot, cb (if slot = 0 then none else some slot))

/-- The nesting scenario of the spec, with pointers `pa` to `a` and `pb`
to `b`: observe the slot, run `set(&a, ...)` whose body observes, runs
`set(&b, ...)` (whose body observes) and observes again, then observe
after the outer `set` returned.  Returns the final slot and the five
observations in order. -/
def nestedObs (pa pb : Nat) :
    Nat × Option Nat × Option Nat × Option Nat × Option Nat × Option Nat :=
  let w0 := scopedWith (fun o => o) 0
  let outerBody : Nat → Nat × (Option Nat × Option Nat × Option Nat) :=
    fun sl =>
      let w1 := scopedWith (fun o => o) sl
      let innr := scopedSet pb (fun sl2 => scopedWith (fun o => o) sl2) w1.1
      let w2 := scopedWith (fun o => o) innr.1
      (w2.1, (w1.2, innr.2, w2.2))
  let outer := scopedSet pa outerBody w0.1
  let w3 := scopedWith (fun o => o) outer.1
  (w3.1, w0.2, outer.2.1, outer.2.2.1, outer.2.2.2, w3.2)

/-- **C3.** `set` records the previous slot content and restores it on
every exit path: for *every* body `cb` — in particular one that
propagates a failure (`Except.error`) — the slot after `set` equals the
slot before it, and the failure is propagated unchanged.  Consequently
nested `set`s restore in LIFO order: starting unset, `with()` sees
`none`; inside the outer `set` it sees `some pa`; inside the inner `set`,
`some pb`; back in the outer body, `some pa` again; and after the outer
`set` returns, `none` again. -/
theorem scoped_set_restores_lifo :
    (∀ (α : Type) (t : Nat) (cb : Nat → Nat × α) (slot : Nat),
      (scopedSet t cb slot).1 = slot) ∧
    (∀ (t slot e : Nat) (body : Nat → Nat),
      scopedSet t (fun sl => (body sl, (Except.error e : Except Nat Nat))) slot
        = (slot, Except.error e)) ∧
    (∀ pa pb : Nat, pa ≠ 0 → pb ≠ 0 →
      nestedObs pa pb = (0, none, some pa, some pb, some pa, none)) := by
  refine ⟨fun _ _ _ _ => rfl, fun _ _ _ _ => rfl, ?_⟩
  intro pa pb hpa hpb
  simp [nestedObs, scopedSet, scopedWith, hpa, hpb]

/-- Witness for `scoped_set_restores_lifo`: the nesting scenario at the
concrete pointers 1 and 2. -/
theorem scoped_set_restores_lifo_witness :
    nestedObs 1 2 = (0, none, some 1, some 2, some 1, none) :=
  scoped_set_restores_lifo.2.2 1 2 (by decide) (by decide)

/-! ## The dynamic layer (`src/dynamic.rs`)

A dynamic key wraps a static key of payload `Option<T>` plus an
initializer.  `Key::get` checks the per-thread slot; if it is `none` it
evaluates the initializer and then stores `Some(result)`, finally
returning the now-present value.  The initializer may itself observe and
change the slot (re-entrant `get`), so it is modelled as a state
transformer; `evals` counts how many times an initializer body was
entered. -/

/-- Per-thread state of a dynamic key: the `Option<T>` payload of the
underlying static key (values as `Nat`) and the number of initializer
evaluations so far on this thread. -/
structure DynSt where
  slot : Option Nat
  evals : Nat
deriving DecidableEq

/-- `dynamic::Key::get` for one thread: if the slot is empty, run the
initializer (which may itself touch the state re-entrantly) and store
`some` of its result — overwriting whatever the initializer left in the
slot, as the write-back happens after the initializer returns; then
return the stored value. -/
def dynGet (init : DynSt → DynSt × Nat) (s : DynSt) : DynSt × Nat :=
  match s.slot with
  | some v => (s, v)
  | none =>
      let r := init s
      ({ r.1 with slot := some r.2 }, r.2)

/-- A non-re-entrant initializer that returns the constant `c`. -/
def pureInit (c : Nat) : DynSt → DynSt × Nat :=
  fun s => ({ s with evals := s.evals + 1 }, c)

/-- An initializer that re-entrantly calls `get()` on its own key.  The
recursion through `get` is represented by fuel: `reInit (d+1)` is an
initializer whose body calls `get` on the same key, that nested `get`
running `reInit d`; `reInit 0` is the innermost body, which returns 99
without recursing (in the code this guard is some state the initializer
consults, e.g. a counter).  Every entry into an initializer body bumps
`evals`. -/
def reInit : Nat → DynSt → DynSt × Nat
  | 0, s => ({ s with evals := s.evals + 1 }, 99)
  | d + 1, s =>
      let s1 : DynSt := { s with evals := s.evals + 1 }
      let r := dynGet (reInit d) s1
      (r.1, r.2 + 1)

-- Sanity: a second get returns the stored instance without re-running init.
example : dynGet (pureInit 4) (dynGet (pureInit 4) ⟨none, 0⟩).1 = (⟨some 4, 1⟩, 4) := by
  decide

/-- **C4 counterexample.** With an initializer that re-entrantly calls
`get()` on the same key once, the first `get` on a fresh thread evaluates
the initializer twice (`evals = 2`, not 1), and the value stored by the
re-entrant inner `get` (99) is overwritten by the outer one (100) — the
inner and outer `get` do not return references to the same stored
instance. -/
theorem dynamic_reentrant_init_twice :
    dynGet (reInit 1) { slot := none, evals := 0 }
      = ({ slot := some 100, evals := 2 }, 100) ∧
    (dynGet (reInit 1) { slot := none, evals := 0 }).1.evals ≠ 1 := by
  exact ⟨rfl, by decide⟩

/-- **C4 amended.** For an initializer that does not re-entrantly call
`get()` on its own key, `get` evaluates it exactly once per thread: the
first `get` on an empty slot runs it once and stores the result, every
`get` on a non-empty slot returns the stored value without running the
initializer, so two sequential `get`s yield the same stored instance with
a single evaluation; and a second thread (its own fresh state) gets its
own independently-initialized instance.  Under a re-entrant initializer
the exactly-once guarantee does not hold — the initializer runs once per
nested empty-slot `get`, and the outermost result overwrites the inner
one. -/
theorem dynamic_init_once_if_not_reentrant :
    (∀ (c e : Nat), dynGet (pureInit c) { slot := none, evals := e }
      = ({ slot := some c, evals := e + 1 }, c)) ∧
    (∀ (init : DynSt → DynSt × Nat) (s : DynSt) (v : Nat),
      s.slot = some v → dynGet init s = (s, v)) ∧
    (∀ (c e : Nat),
      dynGet (pureInit c) (dynGet (pureInit c) { slot := none, evals := e }).1
        = ({ slot := some c, evals := e + 1 }, c)) ∧
    (∀ (c1 c2 : Nat),
      dynGet (pureInit c1) { slot := none, evals := 0 }
        = ({ slot := some c1, evals := 1 }, c1) ∧
      dynGet (pureInit c2) { slot := none, evals := 0 }
        = ({ slot := some c2, evals := 1 }, c2)) := by
  have hstored : ∀ (init : DynSt → DynSt × Nat) (s : DynSt) (v : Nat),
      s.slot = some v → dynGet init s = (s, v) := by
    intro init s v h
    simp [dynGet, h]
  refine ⟨?_, hstored, ?_, ?_⟩
  · intro c e
    simp [dynGet, pureInit]
  · intro c e
    have h1 : dynGet (pureInit c) { slot := none, evals := e }
        = ({ slot := some c, evals := e + 1 }, c) := by
      simp [dynGet, pureInit]
    rw [h1]
    exact hstored (pureInit c) { slot := some c, evals := e + 1 } c rfl
  · intro c1 c2
    exact ⟨by simp [dynGet, pureInit], by simp [dynGet, pureInit]⟩

/-- Witness for `dynamic_init_once_if_not_reentrant`: the stored-slot
case at a concrete state. -/
theorem dynamic_init_once_if_not_reentrant_witness :
    dynGet (pureInit 4) { slot := some 7, evals := 1 }
      = ({ slot := some 7, evals := 1 }, 7) :=
  dynamic_init_once_if_not_reentrant.2.1 (pureInit 4)
    { slot := some 7, evals := 1 } 7 rfl
